import Mathlib

/-!
Verification development for the 5x5i-A papertrader core.

The definitions below are a shallow embedding of the repository's Python
sources into Lean 4:
  * `src/papertrader/risk.py`        → `calc_position_notional`, `apply_slippage`
  * `src/papertrader/engine.py`      → `Position`, `open_position`,
    `updateOnePosition` / `update_positions`, `maybe_mark_restposition`
  * `src/papertrader/gatekeeper.py`  → `gatekeeper_can_open_trade`,
    `is_rest_position_not_active`, `counts_as_active_managed`
  * `src/papertrader/state_store.py` → `load_json`
  * `src/papertrader/exits_A_404020.py` → `exits_A`
  * `config/settings.py`             → the `SETTINGS` namespace

Python floats are modelled as exact rationals (`ℚ`), dicts keyed by strings
as association lists, and the fallible price lookup as `Option ℚ`.
Positions are always the v1.2 schema records that `open_position` writes
(`qty_open`, `qty_total`, `sl`, `break_even`, ...), so the gatekeeper's
legacy-schema fallback reads (`remaining_qty`, `initial_qty`, `sold_pct`,
`requires_management`, `status`, `is_closed`) collapse to their primary
v1.2 branches, exactly as they do at runtime on engine-created positions.
-/

namespace Papertrader

/-- Trade direction, the `direction` field of a signal row / position. -/
inductive Direction where
  | LONG
  | SHORT
deriving DecidableEq, Repr

/-- The `side` string argument of `apply_slippage`: `"entry"` or `"exit"`. -/
inductive Side where
  | entry
  | exit
deriving DecidableEq, Repr

/-- String rendering of a direction, as stored in the Python dicts. -/
def dirStr (d : Direction) : String :=
  match d with
  | Direction.LONG => "LONG"
  | Direction.SHORT => "SHORT"

namespace SETTINGS

/-- config/settings.py: `START_BALANCE_USDT = 10000.0`. -/
def START_BALANCE_USDT : ℚ := 10000

/-- config/settings.py: `RISK_PCT = 0.01`. -/
def RISK_PCT : ℚ := 1/100

/-- config/settings.py: `MAX_OPEN_TRADES = 3`. -/
def MAX_OPEN_TRADES : ℕ := 3

/-- config/settings.py: `SLIPPAGE = 0.0005`. -/
def SLIPPAGE : ℚ := 1/2000

/-- config/settings.py: `FEE_PER_SIDE = 0.0`. -/
def FEE_PER_SIDE : ℚ := 0

/-- config/settings.py: `SL_BUFFER = 0.001`. -/
def SL_BUFFER : ℚ := 1/1000

end SETTINGS

/-- risk.py `calc_position_notional`: notional sized so that the loss at the
stop equals `balance * risk_pct`; zero when the stop distance is degenerate. -/
def calc_position_notional (balance risk_pct entry sl : ℚ) : ℚ :=
  let risk_usdt := balance * risk_pct
  let sl_dist := |entry - sl|
  if sl_dist ≤ 0 then 0
  else
    let qty := risk_usdt / sl_dist
    qty * entry

/-- risk.py `apply_slippage`: entries and exits are both adjusted against
the trader. -/
def apply_slippage (price : ℚ) (d : Direction) (slippage : ℚ) (side : Side) : ℚ :=
  match d, side with
  | Direction.LONG, Side.entry => price * (1 + slippage)
  | Direction.LONG, Side.exit => price * (1 - slippage)
  | Direction.SHORT, Side.entry => price * (1 - slippage)
  | Direction.SHORT, Side.exit => price * (1 + slippage)

/-- engine.py `_fee_cost`: fee is a configured fraction of the exit notional. -/
def fee_cost (notional : ℚ) : ℚ := notional * SETTINGS.FEE_PER_SIDE

/-- The position record that engine.py `open_position` stores under
`positions["open"][symbol]` (v1.2 schema).  The CSV-only bookkeeping strings
(`ts_open`) are omitted; they never influence control flow. -/
structure Position where
  symbol : String
  direction : Direction
  entry : ℚ
  entry_ref : ℚ
  sl : ℚ
  qty_total : ℚ
  qty_open : ℚ
  notional : ℚ
  tps : List (String × ℚ)
  splits : List (String × ℚ)
  filled : List (String × ℚ)
  moved_sl : Bool
  break_even : ℚ
  no_active_decisions : Bool
  signal_id : String
deriving DecidableEq, Repr

/-- Association-list lookup, modelling Python `dict.get(k, None)` /
`k in dict` on string-keyed dicts. -/
def assocFind {α : Type} : List (String × α) → String → Option α
  | [], _ => none
  | (k, v) :: rest, s => if k = s then some v else assocFind rest s

/-- Python `dict.get(k, d)`. -/
def lookupD {α : Type} (l : List (String × α)) (k : String) (d : α) : α :=
  (assocFind l k).getD d

/-- Python `dict[k] = v`: replace the first binding of `k`, or append one. -/
def assocSet {α : Type} : List (String × α) → String → α → List (String × α)
  | [], k, v => [(k, v)]
  | (k0, v0) :: rest, k, v =>
      if k0 = k then (k, v) :: rest else (k0, v0) :: assocSet rest k v

/-- engine.py `_sold_pct`: fraction of the position already exited, clamped
to [0, 1]; 0 when `qty_total` is degenerate. -/
def sold_pct (pos : Position) : ℚ :=
  if pos.qty_total ≤ 0 then 0
  else max 0 (min 1 (1 - pos.qty_open / pos.qty_total))

/-- engine.py `_maybe_mark_restposition` (Patch 1.2 Restposition rule):
with more than 50% sold and the stop beyond break-even in the position's
favor, set `no_active_decisions`; with at most 50% sold, clear it;
otherwise leave it unchanged. -/
def maybe_mark_restposition (pos : Position) : Position :=
  let be := pos.break_even
  let sold := sold_pct pos
  if sold ≤ 1/2 then { pos with no_active_decisions := false }
  else
    match pos.direction with
    | Direction.LONG =>
        if be < pos.sl then { pos with no_active_decisions := true } else pos
    | Direction.SHORT =>
        if pos.sl < be then { pos with no_active_decisions := true } else pos

/-- A pluggable exit-strategy module as consumed by engine.py:
`tp_levels`, `tp_splits`, and the optional `maybe_move_sl(pos, tp_key)`
hook (a module without the attribute is modelled by a hook returning
`none`, matching the `hasattr` guard). -/
structure ExitsMod where
  tp_levels : ℚ → Direction → List (String × ℚ)
  tp_splits : List (String × ℚ)
  maybe_move_sl : Position → String → Option ℚ

/-- exits_A_404020.py `tp_splits`: the 40/40/20 ladder fractions. -/
def exits_A_tp_splits : List (String × ℚ) :=
  [("TP1", 2/5), ("TP2", 2/5), ("TP3", 1/5)]

/-- exits_A_404020.py `tp_levels`: targets at 1.0%, 2.2% and 3.5% from
entry, on the favorable side of the direction. -/
def exits_A_tp_levels (entry : ℚ) (d : Direction) : List (String × ℚ) :=
  match d with
  | Direction.SHORT =>
      [("TP1", entry * (1 - 1/100)), ("TP2", entry * (1 - 22/1000)),
       ("TP3", entry * (1 - 35/1000))]
  | Direction.LONG =>
      [("TP1", entry * (1 + 1/100)), ("TP2", entry * (1 + 22/1000)),
       ("TP3", entry * (1 + 35/1000))]

/-- exits_A_404020.py as an `ExitsMod`.  The module defines
`after_tp2_sl_move` but no `maybe_move_sl` attribute, so engine.py's
`hasattr(exits_mod, "maybe_move_sl")` hook never fires for it. -/
def exits_A : ExitsMod :=
  { tp_levels := exits_A_tp_levels, tp_splits := exits_A_tp_splits,
    maybe_move_sl := fun _ _ => none }

/-- engine.py stop check: LONG stops when `px ≤ sl`, SHORT when `px ≥ sl`. -/
def stop_hit (d : Direction) (px sl : ℚ) : Bool :=
  match d with
  | Direction.LONG => decide (px ≤ sl)
  | Direction.SHORT => decide (sl ≤ px)

/-- engine.py take-profit check: LONG fills when `px ≥ target`, SHORT when
`px ≤ target`. -/
def tp_hit (d : Direction) (px target : ℚ) : Bool :=
  match d with
  | Direction.LONG => decide (target ≤ px)
  | Direction.SHORT => decide (px ≤ target)

/-- Kind of a row appended to `trades.csv`: a stop-out or a TP rung fill. -/
inductive TradeKind where
  | STOP
  | TP (key : String)
deriving DecidableEq, Repr

/-- A row of `trades.csv` as written by engine.py `_log_trade`. -/
structure Trade where
  symbol : String
  kind : TradeKind
  qty : ℚ
  entry : ℚ
  exit_fill : ℚ
  pnl : ℚ
  fee : ℚ
deriving DecidableEq, Repr

/-- The take-profit scan of engine.py `update_positions` (lines 344-444):
walk the ladder in split order, fill each unfilled reached rung, credit the
realized PnL minus fee, mark the rung filled, re-run the Restposition rule,
and apply the optional `maybe_move_sl` stop-relocation hook.  `entry` and
`qty_total` are the loop-local Python variables read once before the scan. -/
def runTPs (exits : ExitsMod) (px entry qty_total : ℚ) (d : Direction) :
    List (String × ℚ) → ℚ → Position → List Trade → ℚ × Position × List Trade
  | [], equity, pos, trades => (equity, pos, trades)
  | (tp_key, pct) :: rest, equity, pos, trades =>
    if pos.qty_open ≤ 0 then (equity, pos, trades)
    else if 0 < lookupD pos.filled tp_key 0 then
      runTPs exits px entry qty_total d rest equity pos trades
    else
      let tp_price := lookupD pos.tps tp_key 0
      if tp_price ≤ 0 then runTPs exits px entry qty_total d rest equity pos trades
      else if tp_hit d px tp_price = false then
        runTPs exits px entry qty_total d rest equity pos trades
      else
        let fill_qty := min pos.qty_open (qty_total * pct)
        if fill_qty ≤ 0 then runTPs exits px entry qty_total d rest equity pos trades
        else
          let exit_fill := apply_slippage tp_price d SETTINGS.SLIPPAGE Side.exit
          let notional_exit := fill_qty * exit_fill
          let pnl := match d with
            | Direction.LONG => (exit_fill - entry) * fill_qty
            | Direction.SHORT => (entry - exit_fill) * fill_qty
          let fee := fee_cost notional_exit
          let equity2 := equity + pnl - fee
          let pos2 := { pos with
            qty_open := pos.qty_open - fill_qty,
            filled := assocSet pos.filled tp_key (lookupD pos.filled tp_key 0 + fill_qty) }
          let trades2 := trades ++
            [{ symbol := pos.symbol, kind := TradeKind.TP tp_key, qty := fill_qty,
               entry := entry, exit_fill := exit_fill, pnl := pnl, fee := fee }]
          let pos3 := maybe_mark_restposition pos2
          let pos4 := match exits.maybe_move_sl pos3 tp_key with
            | none => pos3
            | some new_sl =>
                if 0 < new_sl then
                  maybe_mark_restposition { pos3 with sl := new_sl, moved_sl := true }
                else pos3
          runTPs exits px entry qty_total d rest equity2 pos4 trades2

/-- One position's step of engine.py `update_positions`: skip when the price
is unavailable, drop zombie records, close everything at the slippage-adjusted
stop on a stop hit, otherwise scan the take-profit ladder; the position is
removed (`none`) exactly when it stops out or `qty_open` reaches zero.
Returns the new balance, the surviving position, and the trade rows logged. -/
def updateOnePosition (exits : ExitsMod) (px? : Option ℚ) (equity : ℚ)
    (pos : Position) : ℚ × Option Position × List Trade :=
  match px? with
  | none => (equity, some pos, [])
  | some px =>
    if pos.qty_open ≤ 0 ∨ pos.entry ≤ 0 then (equity, none, [])
    else if stop_hit pos.direction px pos.sl then
      let exit_fill := apply_slippage pos.sl pos.direction SETTINGS.SLIPPAGE Side.exit
      let notional_exit := pos.qty_open * exit_fill
      let pnl := match pos.direction with
        | Direction.LONG => (exit_fill - pos.entry) * pos.qty_open
        | Direction.SHORT => (pos.entry - exit_fill) * pos.qty_open
      let fee := fee_cost notional_exit
      (equity + pnl - fee, none,
       [{ symbol := pos.symbol, kind := TradeKind.STOP, qty := pos.qty_open,
          entry := pos.entry, exit_fill := exit_fill, pnl := pnl, fee := fee }])
    else
      let r := runTPs exits px pos.entry pos.qty_total pos.direction pos.splits equity pos []
      if r.2.1.qty_open ≤ 0 then (r.1, none, r.2.2) else (r.1, some r.2.1, r.2.2)

/-- engine.py `update_positions` over the whole `positions["open"]` mapping:
every position is advanced against its (possibly unavailable) price, and the
closed ones are removed from the open set.  A price-fetch exception behaves
like an unavailable price (both `continue`), so both are `none` here. -/
def update_positions (exits : ExitsMod) (price : String → Option ℚ) :
    ℚ → List (String × Position) → ℚ × List (String × Position) × List Trade
  | equity, [] => (equity, [], [])
  | equity, (sym, pos) :: rest =>
    let r1 := updateOnePosition exits (price sym) equity pos
    let r2 := update_positions exits price r1.1 rest
    (r2.1,
     (match r1.2.1 with | some p => [(sym, p)] | none => []) ++ r2.2.1,
     r1.2.2 ++ r2.2.2)

/-- ASCII upper-casing of one character, the effect of Python `str.upper`
on the symbol/side strings this system handles. -/
def upChar (c : Char) : Char :=
  if c = 'a' then 'A' else if c = 'b' then 'B' else if c = 'c' then 'C'
  else if c = 'd' then 'D' else if c = 'e' then 'E' else if c = 'f' then 'F'
  else if c = 'g' then 'G' else if c = 'h' then 'H' else if c = 'i' then 'I'
  else if c = 'j' then 'J' else if c = 'k' then 'K' else if c = 'l' then 'L'
  else if c = 'm' then 'M' else if c = 'n' then 'N' else if c = 'o' then 'O'
  else if c = 'p' then 'P' else if c = 'q' then 'Q' else if c = 'r' then 'R'
  else if c = 's' then 'S' else if c = 't' then 'T' else if c = 'u' then 'U'
  else if c = 'v' then 'V' else if c = 'w' then 'W' else if c = 'x' then 'X'
  else if c = 'y' then 'Y' else if c = 'z' then 'Z' else c

/-- Python `str.upper` on ASCII strings. -/
def strUpper (s : String) : String := String.mk (s.data.map upChar)

/-- Whitespace as removed by Python `str.strip`. -/
def isSpaceChar (c : Char) : Bool :=
  c = ' ' || c = '\t' || c = '\n' || c = '\r'

/-- Python `str.strip`. -/
def strTrim (s : String) : String :=
  String.mk (((s.data.dropWhile isSpaceChar).reverse.dropWhile isSpaceChar).reverse)

/-- gatekeeper.py `_safe_str(symbol).upper().strip()` normalization. -/
def norm_symbol (s : String) : String := strTrim (strUpper s)

/-- gatekeeper.py `_norm_side`: map LONG/BUY to LONG, SHORT/SELL to SHORT,
anything else passes through normalized. -/
def norm_side (s : String) : String :=
  let t := strTrim (strUpper s)
  if t = "LONG" ∨ t = "BUY" then "LONG"
  else if t = "SHORT" ∨ t = "SELL" then "SHORT"
  else t

/-- gatekeeper.py `is_rest_position_not_active` on a v1.2 engine position:
more than 50% sold, stop beyond break-even in the position's favor, and the
engine's `no_active_decisions` flag set.  (`requires_management` and the
`sold_pct` cache are absent from engine records, and `_initial_qty` /
`_remaining_qty` resolve to `qty_total` / `qty_open`; the computed
`sold_pct` clamp is the same formula as engine.py `_sold_pct`.) -/
def is_rest_position_not_active (pos : Position) : Bool :=
  let cond_sold := decide (1/2 < sold_pct pos)
  let cond_sl_be := match pos.direction with
    | Direction.LONG => decide (pos.break_even < pos.sl)
    | Direction.SHORT => decide (pos.sl < pos.break_even)
  let cond_decisions := pos.no_active_decisions
  cond_sold && cond_sl_be && cond_decisions

/-- gatekeeper.py `counts_as_active_managed` on a v1.2 engine position:
open quantity left and not a Restposition.  (The `status` / `is_closed`
legacy flags are never present on engine records.) -/
def counts_as_active_managed (pos : Position) : Bool :=
  if pos.qty_open ≤ 0 then false
  else if is_rest_position_not_active pos then false
  else true

/-- Which gatekeeper rule produced a decision — the `meta["rule"]` tag. -/
inductive GKRule where
  | one_position_per_symbol
  | no_hedge
  | max_active_managed
  | no_rule
deriving DecidableEq, Repr

/-- gatekeeper.py `GatekeeperDecision` (meta reduced to its `rule` tag). -/
structure GatekeeperDecision where
  allow : Bool
  reason : String
  rule : GKRule
deriving DecidableEq, Repr

/-- gatekeeper.py `gatekeeper_can_open_trade`: rules evaluated in order —
one-position-per-symbol, no-hedge, max-active-managed — first violation
wins; otherwise allow.  `positions_state` is the normalized
`{symbol: position}` mapping that `extract_open_positions` produces from
`{"open": {...}}`. -/
def gatekeeper_can_open_trade (symbol side : String)
    (positions_state : List (String × Position)) (max_active_managed : ℕ)
    (enforce_one_position_per_symbol enforce_no_hedge : Bool) : GatekeeperDecision :=
  let sym := norm_symbol symbol
  let req_side := norm_side side
  let rule1 : Bool :=
    enforce_one_position_per_symbol &&
      (match assocFind positions_state sym with
       | some pos => decide (0 < pos.qty_open)
       | none => false)
  if rule1 then
    { allow := false, reason := "BLOCK: symbol already has an open position",
      rule := GKRule.one_position_per_symbol }
  else
    let rule2 : Bool :=
      enforce_no_hedge &&
        (match assocFind positions_state sym with
         | some pos =>
             decide (dirStr pos.direction ≠ req_side) && decide (0 < pos.qty_open)
         | none => false)
    if rule2 then
      { allow := false, reason := "BLOCK: hedge detected (opposite side already open)",
        rule := GKRule.no_hedge }
    else
      let active_count :=
        (positions_state.filter (fun sp => counts_as_active_managed sp.2)).length
      if max_active_managed ≤ active_count then
        { allow := false, reason := "BLOCK: max active managed positions reached",
          rule := GKRule.max_active_managed }
      else
        { allow := true, reason := "ALLOW", rule := GKRule.no_rule }

/-- A confirmed signal-feed row, with the fields engine.py `open_position`
reads. -/
structure SignalRow where
  symbol : String
  direction : Direction
  entry_ref_price : ℚ
  ema25_4h : ℚ
  fib_0236 : ℚ
  signal_id : String
deriving DecidableEq, Repr

/-- engine.py `open_position` stop derivation: LONG stop below both
reference levels minus the buffer, SHORT stop above both plus the buffer. -/
def derived_sl (row : SignalRow) : ℚ :=
  match row.direction with
  | Direction.LONG => min row.ema25_4h row.fib_0236 * (1 - SETTINGS.SL_BUFFER)
  | Direction.SHORT => max row.ema25_4h row.fib_0236 * (1 + SETTINGS.SL_BUFFER)

/-- engine.py `open_position` entry derivation: the reference price with
entry slippage applied against the trader. -/
def derived_entry (row : SignalRow) : ℚ :=
  apply_slippage row.entry_ref_price row.direction SETTINGS.SLIPPAGE Side.entry

/-- The position dict literal engine.py `open_position` builds (lines
194-211) from an already-derived entry and stop: sized by
`calc_position_notional`, fully open, empty fill map, break-even at entry. -/
def positionFromEntryStop (exits : ExitsMod) (sym : String) (d : Direction)
    (balance entry entry_ref sl : ℚ) (sid : String) : Position :=
  let notional := calc_position_notional balance SETTINGS.RISK_PCT entry sl
  let qty := notional / entry
  { symbol := sym, direction := d, entry := entry, entry_ref := entry_ref,
    sl := sl, qty_total := qty, qty_open := qty, notional := notional,
    tps := exits.tp_levels entry d, splits := exits.tp_splits,
    filled := exits.tp_splits.map (fun kp => (kp.1, (0 : ℚ))),
    moved_sl := false, break_even := entry, no_active_decisions := false,
    signal_id := sid }

/-- engine.py `open_position`: consult the gatekeeper, derive the stop and
the slippage-adjusted entry, size the notional, refuse on non-positive
notional, otherwise store the new position and log the OPEN event.  The
second component is the OPEN event (`none` when nothing was opened). -/
def open_position (exits : ExitsMod) (row : SignalRow) (balance : ℚ)
    (positions : List (String × Position)) :
    List (String × Position) × Option Position :=
  let gk := gatekeeper_can_open_trade row.symbol (dirStr row.direction) positions
    SETTINGS.MAX_OPEN_TRADES true true
  if gk.allow = false then (positions, none)
  else
    let sl := derived_sl row
    let entry := derived_entry row
    let notional := calc_position_notional balance SETTINGS.RISK_PCT entry sl
    if notional ≤ 0 then (positions, none)
    else
      let pos := positionFromEntryStop exits row.symbol row.direction balance
        entry row.entry_ref_price sl row.signal_id
      (assocSet positions row.symbol pos, some pos)

/-- state_store.py `load_json`: a missing or zero-byte document yields the
supplied default; only an existing non-empty document is parsed.  The file
system is a path-to-contents map and the JSON parser a parameter (its
behavior is irrelevant to the missing/empty branches). -/
def load_json {α : Type} (parse : String → Except String α)
    (fs : String → Option String) (path : String) (dflt : α) : Except String α :=
  match fs path with
  | none => Except.ok dflt
  | some contents => if contents.length = 0 then Except.ok dflt else parse contents

/-- The durable engine state: signal cursor, open positions, equity.
engine.py `_load_state` defaults the cursor to `last_index = -1`. -/
structure EngineState where
  last_index : Int
  positions : List (String × Position)
  balance : ℚ
deriving Repr

/-- Modelled from the spec: the signal-consumption half of
`run_papertrader_loop`, which run_papertrader.py imports from engine.py but
which is absent from the source tree.  Per spec sections 3 and 6 the loop
walks the append-only feed with its enumeration index, skips every index at
or below the persisted `last_index`, attempts `open_position` for each new
row, and advances the cursor to the index just consumed.  `i` is the index
of the first row of the remaining feed suffix. -/
def consume_from (exits : ExitsMod) : Int → List SignalRow → EngineState → EngineState
  | _, [], st => st
  | i, row :: rest, st =>
    let st2 :=
      if i ≤ st.last_index then st
      else
        { last_index := i,
          positions := (open_position exits row st.balance st.positions).1,
          balance := st.balance }
    consume_from exits (i + 1) rest st2

/-- Modelled from the spec: one pass of the engine driver over the whole
confirmed-signal feed, starting at index 0. -/
def consume_signals (exits : ExitsMod) (feed : List SignalRow)
    (st : EngineState) : EngineState :=
  consume_from exits 0 feed st

/-- Total quantity recorded in `filled_quantity_by_label`. -/
def sum_filled (pos : Position) : ℚ := (pos.filled.map Prod.snd).sum

/-- The quantity bookkeeping invariant of spec section 3. -/
def QtyInvariant (pos : Position) : Prop :=
  sum_filled pos ≤ pos.qty_total ∧
  pos.qty_open = pos.qty_total - sum_filled pos ∧
  0 ≤ pos.qty_open ∧ pos.qty_open ≤ pos.qty_total

/-- The stop is beyond break-even in the position's favor: above for LONG,
below for SHORT. -/
def slBeyondBreakEven (pos : Position) : Prop :=
  match pos.direction with
  | Direction.LONG => pos.break_even < pos.sl
  | Direction.SHORT => pos.sl < pos.break_even

/-- The slippage-adjusted stop price the engine uses on a stop-out. -/
def stop_exit_fill (pos : Position) : ℚ :=
  apply_slippage pos.sl pos.direction SETTINGS.SLIPPAGE Side.exit

/-- The realized PnL of a stop-out that closes the whole `qty_open`. -/
def stop_pnl (pos : Position) : ℚ :=
  match pos.direction with
  | Direction.LONG => (stop_exit_fill pos - pos.entry) * pos.qty_open
  | Direction.SHORT => (pos.entry - stop_exit_fill pos) * pos.qty_open

/-- The single STOP trade row the engine logs on a stop-out. -/
def stop_trade (pos : Position) : Trade :=
  { symbol := pos.symbol, kind := TradeKind.STOP, qty := pos.qty_open,
    entry := pos.entry, exit_fill := stop_exit_fill pos, pnl := stop_pnl pos,
    fee := fee_cost (pos.qty_open * stop_exit_fill pos) }

/-- Concrete position fixture used by witnesses and counterexamples: an
exits-A position with the schema `open_position` writes. -/
def mkFixture (sym : String) (d : Direction) (entry sl qty_total qty_open be : ℚ)
    (filled : List (String × ℚ)) (flag : Bool) : Position :=
  { symbol := sym, direction := d, entry := entry, entry_ref := entry, sl := sl,
    qty_total := qty_total, qty_open := qty_open, notional := qty_total * entry,
    tps := exits_A_tp_levels entry d, splits := exits_A_tp_splits,
    filled := filled, moved_sl := false, break_even := be,
    no_active_decisions := flag, signal_id := "sig" }

/-- Concrete four-position open set used by the C4 counterexample: the
requested symbol's position is fully exited and three other positions are
still actively managed. -/
def cexOpenSet : List (String × Position) :=
  [("BTCUSDT", mkFixture "BTCUSDT" Direction.LONG 100 90 1 0 100 [] false),
   ("AAAUSDT", mkFixture "AAAUSDT" Direction.LONG 100 90 1 1 100 [] false),
   ("BBBUSDT", mkFixture "BBBUSDT" Direction.LONG 100 90 1 1 100 [] false),
   ("CCCUSDT", mkFixture "CCCUSDT" Direction.LONG 100 90 1 1 100 [] false)]

/-- C6: a cycle whose price lookup is unavailable leaves the position, the
balance and the trade log untouched — unavailability is never a stop
trigger.  This is the per-position body of `update_positions`, which is
exactly the scope the engine's `continue` skips. -/
theorem C6_price_unavailable_is_noop (exits : ExitsMod) (equity : ℚ) (pos : Position) :
    updateOnePosition exits none equity pos = (equity, some pos, []) := rfl

/-- C9: `load_json` of a missing document, or of an existing zero-byte
document, returns the supplied default and never an error, whatever the
JSON parser would do. -/
theorem C9_load_json_missing_or_empty {α : Type} (parse : String → Except String α)
    (fs : String → Option String) (path : String) (dflt : α) :
    (fs path = none → load_json parse fs path dflt = Except.ok dflt) ∧
    (fs path = some "" → load_json parse fs path dflt = Except.ok dflt) := by
  constructor
  · intro h
    simp [load_json, h]
  · intro h
    simp [load_json, h]

/-- Witness for C9 at a concrete file system, path and default. -/
theorem C9_witness :
    load_json (fun _ => Except.error "corrupt") (fun _ => none) "cursor.json" (0 : ℚ) =
      Except.ok 0 ∧
    load_json (fun _ => Except.error "corrupt") (fun _ => some "") "cursor.json" (0 : ℚ) =
      Except.ok 0 :=
  ⟨(C9_load_json_missing_or_empty (fun _ => Except.error "corrupt") (fun _ => none)
      "cursor.json" 0).1 rfl,
   (C9_load_json_missing_or_empty (fun _ => Except.error "corrupt") (fun _ => some "")
      "cursor.json" 0).2 rfl⟩

/-- C5: whenever the stop condition holds on an observed price (LONG
`px ≤ sl`, SHORT `px ≥ sl` — a gap past the stop included), the cycle
produces exactly one trade, a STOP closing the entire remaining `qty_open`
at the slippage-adjusted stop price, removes the position from the open
set, and evaluates no take-profit rung. -/
theorem C5_stop_hit_closes_whole_position (exits : ExitsMod) (px equity : ℚ)
    (pos : Position) (hq : 0 < pos.qty_open) (he : 0 < pos.entry)
    (hstop : stop_hit pos.direction px pos.sl = true) :
    updateOnePosition exits (some px) equity pos =
      (equity + stop_pnl pos - fee_cost (pos.qty_open * stop_exit_fill pos),
       none, [stop_trade pos]) := by
  have hz : ¬ (pos.qty_open ≤ 0 ∨ pos.entry ≤ 0) := by
    rintro (h | h) <;> linarith
  simp only [updateOnePosition, hz, if_false, hstop, if_true]
  rfl

/-- Witness for C5: the spec scenario — SHORT from 100 with stop 105, price
gaps to 106 without crossing the stop incrementally. -/
theorem C5_witness :
    updateOnePosition exits_A (some 106) 10000
        (mkFixture "ETHUSDT" Direction.SHORT 100 105 1 1 100 [] false) =
      (10000 + stop_pnl (mkFixture "ETHUSDT" Direction.SHORT 100 105 1 1 100 [] false)
         - fee_cost ((mkFixture "ETHUSDT" Direction.SHORT 100 105 1 1 100 [] false).qty_open *
             stop_exit_fill (mkFixture "ETHUSDT" Direction.SHORT 100 105 1 1 100 [] false)),
       none, [stop_trade (mkFixture "ETHUSDT" Direction.SHORT 100 105 1 1 100 [] false)]) :=
  C5_stop_hit_closes_whole_position exits_A 106 10000 _
    (by norm_num [mkFixture]) (by norm_num [mkFixture])
    (by simp only [mkFixture, stop_hit, decide_eq_true_eq]; norm_num)

/-- C10: with one-position-per-symbol enforcement on, any request for a
symbol whose existing position still has open quantity is denied with the
`one_position_per_symbol` reason whatever side is requested, and a
`no_hedge` decision is never produced. -/
theorem C10_no_hedge_rule_unreachable :
    (∀ (symbol side : String) (st : List (String × Position)) (m : ℕ) (pos : Position),
        assocFind st (norm_symbol symbol) = some pos → 0 < pos.qty_open →
        gatekeeper_can_open_trade symbol side st m true true =
          { allow := false, reason := "BLOCK: symbol already has an open position",
            rule := GKRule.one_position_per_symbol }) ∧
    (∀ (symbol side : String) (st : List (String × Position)) (m : ℕ) (eh : Bool),
        (gatekeeper_can_open_trade symbol side st m true eh).rule ≠ GKRule.no_hedge) := by
  constructor
  · intro symbol side st m pos hfind hq
    simp [gatekeeper_can_open_trade, hfind, hq]
  · intro symbol side st m eh
    unfold gatekeeper_can_open_trade
    cases hfind : assocFind st (norm_symbol symbol) with
    | none =>
      simp only [hfind, Bool.and_false]
      split
      · simp
      · split
        · simp_all
        · simp
    | some pos =>
      by_cases hq : 0 < pos.qty_open
      · simp [hfind, hq]
      · have hd : decide (0 < pos.qty_open) = false := decide_eq_false hq
        simp only [hfind, hd, Bool.and_false]
        split
        · simp
        · split
          · simp_all
          · simp

/-- Witness for C10: a LONG BTCUSDT position with open quantity blocks a
SHORT BTCUSDT request with the one-position-per-symbol reason, not the
no-hedge reason. -/
theorem C10_witness :
    gatekeeper_can_open_trade "BTCUSDT" "SHORT"
        [("BTCUSDT", mkFixture "BTCUSDT" Direction.LONG 100 90 1 1 100 [] false)]
        3 true true =
      { allow := false, reason := "BLOCK: symbol already has an open position",
        rule := GKRule.one_position_per_symbol } :=
  C10_no_hedge_rule_unreachable.1 "BTCUSDT" "SHORT" _ 3 _
    (by rfl) (by norm_num [mkFixture])

/-- C7: sizing with a degenerate stop distance returns zero notional (and,
being a total function, raises nothing); with a positive stop distance the
notional is `balance * risk_fraction / stop_distance * entry`; and whenever
the sizing of a signal row comes out non-positive, `open_position` refuses
to open — the open set is unchanged and no OPEN event is produced. -/
theorem C7_degenerate_sizing_refuses :
    (∀ balance risk_pct entry sl : ℚ, |entry - sl| ≤ 0 →
        calc_position_notional balance risk_pct entry sl = 0) ∧
    (∀ balance risk_pct entry sl : ℚ, 0 < |entry - sl| →
        calc_position_notional balance risk_pct entry sl =
          balance * risk_pct / |entry - sl| * entry) ∧
    (∀ (exits : ExitsMod) (row : SignalRow) (balance : ℚ)
        (positions : List (String × Position)),
        calc_position_notional balance SETTINGS.RISK_PCT (derived_entry row)
          (derived_sl row) ≤ 0 →
        open_position exits row balance positions = (positions, none)) := by
  refine ⟨?_, ?_, ?_⟩
  · intro balance risk_pct entry sl h
    simp [calc_position_notional, h]
  · intro balance risk_pct entry sl h
    simp [calc_position_notional, not_le.mpr h]
  · intro exits row balance positions h
    unfold open_position
    dsimp only
    rw [if_pos h]
    split <;> rfl

/-- Witness for C7: a zero stop distance, a live 5-point stop distance, and
a degenerate signal row (all reference prices zero) that the engine refuses
to open on an empty book. -/
theorem C7_witness :
    calc_position_notional 10000 (1/100) 100 100 = 0 ∧
    calc_position_notional 10000 (1/100) 100 95 = 10000 * (1/100) / |100 - 95| * 100 ∧
    open_position exits_A
        { symbol := "BTCUSDT", direction := Direction.LONG, entry_ref_price := 0,
          ema25_4h := 0, fib_0236 := 0, signal_id := "s0" } 10000 [] = ([], none) := by
  refine ⟨C7_degenerate_sizing_refuses.1 10000 (1/100) 100 100 (by norm_num),
          C7_degenerate_sizing_refuses.2.1 10000 (1/100) 100 95 ?_,
          C7_degenerate_sizing_refuses.2.2 exits_A _ 10000 [] ?_⟩
  · rw [show (100 : ℚ) - 95 = 5 by norm_num, abs_of_pos] <;> norm_num
  · norm_num [derived_entry, derived_sl, apply_slippage, calc_position_notional,
      SETTINGS.RISK_PCT, SETTINGS.SLIPPAGE, SETTINGS.SL_BUFFER]

/-- C3: starting from a position not yet marked, `_maybe_mark_restposition`
sets the largely-exited flag exactly when the sold fraction exceeds one half
AND the stop sits beyond break-even in the position's favor — never from the
stop side alone, never from the fill side alone; and the gatekeeper's
`is_rest_position_not_active` likewise demands both conditions. -/
theorem C3_largely_exited_flag :
    (∀ pos : Position, pos.no_active_decisions = false →
        ((maybe_mark_restposition pos).no_active_decisions = true ↔
          (1/2 < sold_pct pos ∧ slBeyondBreakEven pos))) ∧
    (∀ pos : Position, is_rest_position_not_active pos = true →
        1/2 < sold_pct pos ∧ slBeyondBreakEven pos) := by
  constructor
  · intro pos hflag
    unfold maybe_mark_restposition slBeyondBreakEven
    by_cases hs : sold_pct pos ≤ 1/2
    · rw [if_pos hs]
      constructor
      · intro hh
        simp at hh
      · rintro ⟨h1, _⟩
        exact absurd h1 (not_lt.mpr hs)
    · rw [if_neg hs]
      have hs2 : 1/2 < sold_pct pos := not_le.mp hs
      cases hdir : pos.direction with
      | LONG =>
        simp only [hdir]
        by_cases hbe : pos.break_even < pos.sl
        · simp [hbe]
          rwa [one_div] at hs2
        · simp [hbe, hflag]
      | SHORT =>
        simp only [hdir]
        by_cases hbe : pos.sl < pos.break_even
        · simp [hbe]
          rwa [one_div] at hs2
        · simp [hbe, hflag]
  · intro pos h
    cases hdir : pos.direction with
    | LONG =>
      simp only [is_rest_position_not_active, hdir, Bool.and_eq_true,
        decide_eq_true_eq] at h
      exact ⟨h.1.1, by simp only [slBeyondBreakEven, hdir]; exact h.1.2⟩
    | SHORT =>
      simp only [is_rest_position_not_active, hdir, Bool.and_eq_true,
        decide_eq_true_eq] at h
      exact ⟨h.1.1, by simp only [slBeyondBreakEven, hdir]; exact h.1.2⟩

/-- Witness for C3: a LONG position 60% sold with the stop moved to 101,
above its break-even of 100, gets marked largely-exited. -/
theorem C3_witness :
    (maybe_mark_restposition
        (mkFixture "BTCUSDT" Direction.LONG 100 101 10 4 100 [] false)).no_active_decisions =
      true :=
  (C3_largely_exited_flag.1 _ rfl).mpr
    ⟨by norm_num [sold_pct, mkFixture, min_def, max_def],
     by norm_num [slBeyondBreakEven, mkFixture]⟩

/-- Adding `d` to the stored fill of one label raises the total recorded
fill by exactly `d` (the engine writes `filled[key] = filled.get(key) + d`). -/
theorem sum_snd_assocSet_add (l : List (String × ℚ)) (k : String) (d : ℚ) :
    ((assocSet l k (lookupD l k 0 + d)).map Prod.snd).sum =
      (l.map Prod.snd).sum + d := by
  induction l with
  | nil => simp [assocSet, lookupD, assocFind]
  | cons hd tl ih =>
    obtain ⟨k0, v0⟩ := hd
    by_cases hk : k0 = k
    · subst hk
      simp [assocSet, lookupD, assocFind]
      ring
    · simp only [assocSet, lookupD, assocFind, hk, if_false, if_neg hk,
        List.map_cons, List.sum_cons] at ih ⊢
      rw [ih]
      ring

/-- `QtyInvariant` only looks at `qty_open`, `qty_total` and `filled`. -/
theorem QtyInvariant_of_fields (a b : Position) (h1 : a.qty_open = b.qty_open)
    (h2 : a.qty_total = b.qty_total) (h3 : a.filled = b.filled)
    (hb : QtyInvariant b) : QtyInvariant a := by
  unfold QtyInvariant sum_filled at hb ⊢
  rw [h1, h2, h3]
  exact hb

/-- The Restposition re-check touches only the `no_active_decisions` flag. -/
theorem mark_restposition_fields (pos : Position) :
    (maybe_mark_restposition pos).qty_open = pos.qty_open ∧
    (maybe_mark_restposition pos).qty_total = pos.qty_total ∧
    (maybe_mark_restposition pos).filled = pos.filled := by
  unfold maybe_mark_restposition
  by_cases hs : sold_pct pos ≤ 1/2
  · simp only [if_pos hs]
    exact ⟨by trivial, by trivial, by trivial⟩
  · simp only [if_neg hs]
    cases hdir : pos.direction with
    | LONG =>
      by_cases hbe : pos.break_even < pos.sl
      · simp only [hdir, if_pos hbe]
        exact ⟨by trivial, by trivial, by trivial⟩
      · simp only [hdir, if_neg hbe]
        exact ⟨by trivial, by trivial, by trivial⟩
    | SHORT =>
      by_cases hbe : pos.sl < pos.break_even
      · simp only [hdir, if_pos hbe]
        exact ⟨by trivial, by trivial, by trivial⟩
      · simp only [hdir, if_neg hbe]
        exact ⟨by trivial, by trivial, by trivial⟩

/-- The Restposition re-check preserves the quantity invariant. -/
theorem QtyInvariant_mark (pos : Position) (h : QtyInvariant pos) :
    QtyInvariant (maybe_mark_restposition pos) :=
  QtyInvariant_of_fields _ _ (mark_restposition_fields pos).1
    (mark_restposition_fields pos).2.1 (mark_restposition_fields pos).2.2 h

/-- One rung fill — decrement `qty_open` by the filled quantity and add it
to the rung's recorded fill — preserves the quantity invariant. -/
theorem QtyInvariant_fill (pos : Position) (k : String) (fq : ℚ)
    (hfq : 0 < fq) (hle : fq ≤ pos.qty_open) (h : QtyInvariant pos) :
    QtyInvariant { pos with
        qty_open := pos.qty_open - fq,
        filled := assocSet pos.filled k (lookupD pos.filled k 0 + fq) } := by
  obtain ⟨h1, h2, h3, h4⟩ := h
  unfold QtyInvariant sum_filled at *
  dsimp only
  rw [sum_snd_assocSet_add]
  refine ⟨by linarith, by linarith, by linarith, by linarith⟩

/-- The take-profit scan preserves the quantity invariant at every rung. -/
theorem runTPs_preserves_QtyInvariant (exits : ExitsMod) (px entry qt : ℚ)
    (d : Direction) :
    ∀ (rungs : List (String × ℚ)) (equity : ℚ) (pos : Position)
      (trades : List Trade), QtyInvariant pos →
      QtyInvariant (runTPs exits px entry qt d rungs equity pos trades).2.1 := by
  intro rungs
  induction rungs with
  | nil =>
    intro equity pos trades h
    simpa [runTPs] using h
  | cons rung rest ih =>
    intro equity pos trades h
    obtain ⟨tp_key, pct⟩ := rung
    rw [runTPs]
    dsimp only
    split
    · exact h
    · split
      · exact ih equity pos trades h
      · split
        · exact ih equity pos trades h
        · split
          · exact ih equity pos trades h
          · split
            · exact ih equity pos trades h
            · next hfq =>
              apply ih
              have hfill : QtyInvariant { pos with
                  qty_open := pos.qty_open - min pos.qty_open (qt * pct),
                  filled := assocSet pos.filled tp_key
                    (lookupD pos.filled tp_key 0 + min pos.qty_open (qt * pct)) } :=
                QtyInvariant_fill pos tp_key _ (not_le.mp hfq) (min_le_left _ _) h
              have h3 := QtyInvariant_mark _ hfill
              cases hmv : exits.maybe_move_sl (maybe_mark_restposition _) tp_key with
              | none => exact h3
              | some new_sl =>
                dsimp only
                split
                · apply QtyInvariant_mark
                  exact QtyInvariant_of_fields _ _ rfl rfl rfl h3
                · exact h3

/-- C2: the per-position quantity accounting is an invariant of the engine:
any position the cycle keeps open still satisfies
`sum(filled) ≤ qty_total`, `qty_open = qty_total − sum(filled)` and
`0 ≤ qty_open ≤ qty_total` (a stop-hit removes the position from the open
set, so every surviving position went through rung fills only), and every
position freshly created by `open_position` satisfies it from the start. -/
theorem C2_quantity_invariant :
    (∀ (exits : ExitsMod) (px? : Option ℚ) (equity : ℚ) (pos : Position),
        QtyInvariant pos →
        ∀ eq2 pos2 trades,
          updateOnePosition exits px? equity pos = (eq2, some pos2, trades) →
          QtyInvariant pos2) ∧
    (∀ (exits : ExitsMod) (row : SignalRow) (balance : ℚ)
        (positions : List (String × Position)) (pos0 : Position),
        0 ≤ balance →
        (open_position exits row balance positions).2 = some pos0 →
        QtyInvariant pos0) := by
  constructor
  · intro exits px? equity pos h eq2 pos2 trades heq
    cases px? with
    | none =>
      simp only [updateOnePosition, Prod.mk.injEq, Option.some.injEq] at heq
      rw [← heq.2.1]
      exact h
    | some px =>
      simp only [updateOnePosition] at heq
      split at heq
      · simp at heq
      · split at heq
        · simp at heq
        · split at heq
          · simp at heq
          · simp only [Prod.mk.injEq, Option.some.injEq] at heq
            rw [← heq.2.1]
            exact runTPs_preserves_QtyInvariant exits px pos.entry pos.qty_total
              pos.direction pos.splits equity pos [] h
  · intro exits row balance positions pos0 hb hopen
    unfold open_position at hopen
    dsimp only at hopen
    split at hopen
    · simp at hopen
    · split at hopen
      · simp at hopen
      · next hnot =>
        simp only [Option.some.injEq] at hopen
        rw [← hopen]
        have hpos2 : 0 < calc_position_notional balance SETTINGS.RISK_PCT
            (derived_entry row) (derived_sl row) := not_le.mp hnot
        unfold calc_position_notional at hpos2
        unfold positionFromEntryStop QtyInvariant sum_filled calc_position_notional
        dsimp only
        by_cases hd : |derived_entry row - derived_sl row| ≤ 0
        · rw [if_pos hd] at hpos2
          exact absurd hpos2 (by norm_num)
        · rw [if_neg hd] at hpos2 ⊢
          have hq0 : 0 ≤ balance * SETTINGS.RISK_PCT / |derived_entry row - derived_sl row| :=
            div_nonneg (mul_nonneg hb (by norm_num [SETTINGS.RISK_PCT])) (abs_nonneg _)
          have hent : derived_entry row ≠ 0 := by
            intro h0
            rw [h0, mul_zero] at hpos2
            exact lt_irrefl 0 hpos2
          rw [mul_div_cancel_right₀ _ hent]
          have hzero : ((exits.tp_splits.map fun kp => (kp.1, (0 : ℚ))).map Prod.snd).sum = 0 := by
            induction exits.tp_splits with
            | nil => simp
            | cons a l ihl => simpa using ihl
          rw [hzero]
          refine ⟨by linarith, by ring, hq0, le_refl _⟩

/-- Witness for C2: a fully-open fixture position satisfies the invariant,
and a cycle with an unavailable price keeps it (both hypotheses of the
preservation statement discharged concretely). -/
theorem C2_witness :
    QtyInvariant (mkFixture "BTCUSDT" Direction.LONG 100 95 2 2 100 [] false) :=
  C2_quantity_invariant.1 exits_A none 10000
    (mkFixture "BTCUSDT" Direction.LONG 100 95 2 2 100 [] false)
    (by norm_num [QtyInvariant, sum_filled, mkFixture])
    10000 (mkFixture "BTCUSDT" Direction.LONG 100 95 2 2 100 [] false) [] rfl

/-- C1 counterexample: with the engine's configured slippage (0.0005) the
stop-out loss is NOT exactly `balance × risk_fraction`.  LONG, balance
10000, risk 1%, entry 100, stop 95: the stop-out lands the balance at
9899.05, not at 9900 = balance − balance × risk. -/
theorem C1_counterexample :
    (updateOnePosition exits_A (some 95) 10000
        (positionFromEntryStop exits_A "BTCUSDT" Direction.LONG 10000 100 100 95 "sig1")).1 ≠
      10000 - 10000 * SETTINGS.RISK_PCT := by
  have h5 : |(100 : ℚ) - 95| = 5 := by
    rw [show (100 : ℚ) - 95 = 5 by norm_num]
    exact abs_of_pos (by norm_num)
  norm_num [updateOnePosition, positionFromEntryStop, calc_position_notional,
    apply_slippage, stop_hit, fee_cost, SETTINGS.RISK_PCT, SETTINGS.SLIPPAGE,
    SETTINGS.FEE_PER_SIDE, h5, decide_eq_true_eq]

/-- C1 amended: a stop-out of a position sized by `calc_position_notional`
realizes, before fees, a loss of exactly `balance × risk_fraction` PLUS the
slippage cost `SLIPPAGE × stop × quantity` on the closed quantity
(`quantity = balance × risk_fraction / |entry − stop|`); with zero slippage
the loss is exactly `balance × risk_fraction`. -/
theorem C1_stop_out_loss (exits : ExitsMod) (sym sid : String)
    (d : Direction) (balance entry sl : ℚ)
    (hR : 0 < balance * SETTINGS.RISK_PCT) (he : 0 < entry)
    (hL : d = Direction.LONG → sl < entry) (hS : d = Direction.SHORT → entry < sl) :
    (updateOnePosition exits (some sl) balance
        (positionFromEntryStop exits sym d balance entry entry sl sid)).1 =
      balance - (balance * SETTINGS.RISK_PCT +
        SETTINGS.SLIPPAGE * sl * (balance * SETTINGS.RISK_PCT / |entry - sl|)) := by
  cases d with
  | LONG =>
    have hsl : sl < entry := hL rfl
    have hd : (0 : ℚ) < entry - sl := by linarith
    have habs : |entry - sl| = entry - sl := abs_of_pos hd
    have hne : entry - sl ≠ 0 := ne_of_gt hd
    have hent : entry ≠ 0 := ne_of_gt he
    simp only [updateOnePosition, positionFromEntryStop, calc_position_notional,
      apply_slippage, stop_hit, fee_cost, habs]
    rw [if_neg (not_le.mpr hd)]
    rw [mul_div_cancel_right₀ _ hent]
    have hq0 : 0 < balance * SETTINGS.RISK_PCT / (entry - sl) := div_pos hR hd
    rw [if_neg (by rintro (hc | hc) <;> linarith)]
    rw [if_pos (by simp)]
    dsimp only
    rw [SETTINGS.FEE_PER_SIDE]
    field_simp
    ring
  | SHORT =>
    have hsl : entry < sl := hS rfl
    have hd : (0 : ℚ) < sl - entry := by linarith
    have habs : |entry - sl| = sl - entry := by
      rw [abs_sub_comm]
      exact abs_of_pos hd
    have hne : sl - entry ≠ 0 := ne_of_gt hd
    have hent : entry ≠ 0 := ne_of_gt he
    simp only [updateOnePosition, positionFromEntryStop, calc_position_notional,
      apply_slippage, stop_hit, fee_cost, habs]
    rw [if_neg (not_le.mpr hd)]
    rw [mul_div_cancel_right₀ _ hent]
    have hq0 : 0 < balance * SETTINGS.RISK_PCT / (sl - entry) := div_pos hR hd
    rw [if_neg (by rintro (hc | hc) <;> linarith)]
    rw [if_pos (by simp)]
    dsimp only
    rw [SETTINGS.FEE_PER_SIDE]
    field_simp
    ring

/-- Witness for the amended C1 at the counterexample's own input. -/
theorem C1_witness :
    (updateOnePosition exits_A (some 95) 10000
        (positionFromEntryStop exits_A "BTCUSDT" Direction.LONG 10000 100 100 95 "sig1")).1 =
      10000 - (10000 * SETTINGS.RISK_PCT +
        SETTINGS.SLIPPAGE * 95 * (10000 * SETTINGS.RISK_PCT / |100 - 95|)) :=
  C1_stop_out_loss exits_A "BTCUSDT" "sig1" Direction.LONG 10000 100 95
    (by norm_num [SETTINGS.RISK_PCT]) (by norm_num)
    (fun _ => by norm_num) (fun h => absurd h (by decide))

/-- C4 counterexample: once the symbol's position has `qty_open = 0` the
request is NOT always allowed — with three other actively-managed positions
the max-active-managed rule still denies it. -/
theorem C4_counterexample :
    assocFind cexOpenSet (norm_symbol "BTCUSDT") =
      some (mkFixture "BTCUSDT" Direction.LONG 100 90 1 0 100 [] false) ∧
    (mkFixture "BTCUSDT" Direction.LONG 100 90 1 0 100 [] false).qty_open = 0 ∧
    (gatekeeper_can_open_trade "BTCUSDT" "SHORT" cexOpenSet 3 true true).allow = false := by
  refine ⟨rfl, rfl, ?_⟩
  have h1 : norm_symbol "BTCUSDT" = "BTCUSDT" := by decide
  have hcount :
      (cexOpenSet.filter (fun sp => counts_as_active_managed sp.2)).length = 3 := by
    norm_num [cexOpenSet, counts_as_active_managed, is_rest_position_not_active,
      sold_pct, mkFixture, List.filter, min_def, max_def]
  simp only [gatekeeper_can_open_trade, h1, hcount]
  norm_num [cexOpenSet, assocFind, mkFixture]

/-- C4 amended: the Gatekeeper denies a same-symbol request — in particular
an opposite-side one — whenever the symbol's open position still has
`qty_open > 0`; once that position's `qty_open` reaches 0, the same-symbol
and no-hedge rules no longer deny, and the request is allowed exactly when
the count of actively-managed positions is below the configured ceiling. -/
theorem C4_admission_by_remaining_qty (symbol side : String)
    (st : List (String × Position)) (m : ℕ) :
    (∀ pos : Position, assocFind st (norm_symbol symbol) = some pos →
        0 < pos.qty_open →
        (gatekeeper_can_open_trade symbol side st m true true).allow = false) ∧
    ((∀ pos : Position, assocFind st (norm_symbol symbol) = some pos →
        pos.qty_open ≤ 0) →
      (st.filter (fun sp => counts_as_active_managed sp.2)).length < m →
      (gatekeeper_can_open_trade symbol side st m true true).allow = true) := by
  constructor
  · intro pos hfind hq
    simp [gatekeeper_can_open_trade, hfind, hq]
  · intro hz hcount
    unfold gatekeeper_can_open_trade
    cases hfind : assocFind st (norm_symbol symbol) with
    | none =>
      simp [hfind, not_le.mpr hcount]
    | some pos =>
      have hd : decide (0 < pos.qty_open) = false :=
        decide_eq_false (not_lt.mpr (hz pos hfind))
      simp [hfind, hd, not_le.mpr hcount]

/-- Witness for the amended C4: the same LONG BTCUSDT book first with open
quantity (denied) and then fully exited with no other active position
(allowed). -/
theorem C4_witness :
    (gatekeeper_can_open_trade "BTCUSDT" "SHORT"
        [("BTCUSDT", mkFixture "BTCUSDT" Direction.LONG 100 90 1 1 100 [] false)]
        3 true true).allow = false ∧
    (gatekeeper_can_open_trade "BTCUSDT" "SHORT"
        [("BTCUSDT", mkFixture "BTCUSDT" Direction.LONG 100 90 1 0 100 [] false)]
        3 true true).allow = true := by
  constructor
  · exact (C4_admission_by_remaining_qty "BTCUSDT" "SHORT" _ 3).1 _ rfl
      (by norm_num [mkFixture])
  · refine (C4_admission_by_remaining_qty "BTCUSDT" "SHORT" _ 3).2 ?_ ?_
    · intro pos hp
      have h1 : norm_symbol "BTCUSDT" = "BTCUSDT" := by decide
      rw [h1] at hp
      simp only [assocFind, if_true, eq_self_iff_true, Option.some.injEq] at hp
      subst hp
      norm_num [mkFixture]
    · norm_num [counts_as_active_managed, mkFixture, List.filter]

/-- Cursor advancement never decreases `last_index`. -/
theorem consume_from_last_index_mono (exits : ExitsMod) :
    ∀ (l : List SignalRow) (i : Int) (st : EngineState),
      st.last_index ≤ (consume_from exits i l st).last_index := by
  intro l
  induction l with
  | nil =>
    intro i st
    simp [consume_from]
  | cons row rest ih =>
    intro i st
    rw [consume_from]
    by_cases hc : i ≤ st.last_index
    · rw [if_pos hc]
      exact ih (i + 1) st
    · rw [if_neg hc]
      have h2 := ih (i + 1)
        { last_index := i,
          positions := (open_position exits row st.balance st.positions).1,
          balance := st.balance }
      have h3 : st.last_index ≤ i := le_of_lt (lt_of_not_le hc)
      exact le_trans h3 h2

/-- After a pass over a nonempty feed suffix starting at index `i`, the
cursor is at least the index of the suffix's last row. -/
theorem consume_from_last_index_ge (exits : ExitsMod) :
    ∀ (l : List SignalRow) (i : Int) (st : EngineState), l ≠ [] →
      i + l.length - 1 ≤ (consume_from exits i l st).last_index := by
  intro l
  induction l with
  | nil =>
    intro i st h
    exact absurd rfl h
  | cons row rest ih =>
    intro i st _
    rw [consume_from]
    cases rest with
    | nil =>
      simp only [consume_from]
      by_cases hc : i ≤ st.last_index
      · rw [if_pos hc]
        simp only [List.length_cons, List.length_nil]
        omega
      · rw [if_neg hc]
        simp only [List.length_cons, List.length_nil]
        omega
    | cons row2 rest2 =>
      have h2 := ih (i + 1)
        (if i ≤ st.last_index then st
         else
           { last_index := i,
             positions := (open_position exits row st.balance st.positions).1,
             balance := st.balance }) (by simp)
      simp only [List.length_cons] at h2 ⊢
      omega

/-- A pass over a feed all of whose indices are already consumed changes
nothing at all. -/
theorem consume_from_all_consumed (exits : ExitsMod) :
    ∀ (l : List SignalRow) (i : Int) (st : EngineState),
      (∀ j : Int, i ≤ j → j < i + l.length → j ≤ st.last_index) →
      consume_from exits i l st = st := by
  intro l
  induction l with
  | nil =>
    intro i st _
    rfl
  | cons row rest ih =>
    intro i st h
    rw [consume_from]
    have hc : i ≤ st.last_index := by
      refine h i le_rfl ?_
      simp only [List.length_cons]
      omega
    rw [if_pos hc]
    refine ih (i + 1) st ?_
    intro j hj1 hj2
    refine h j (by omega) ?_
    simp only [List.length_cons] at hj2 ⊢
    omega

/-- C8: consuming the signal feed is idempotent over the cursor — a row
whose index is at or below the persisted `last_index` is skipped outright
(no open attempt, no state change for it), and re-running a whole pass over
the same feed is a no-op: no duplicate position is ever opened. -/
theorem C8_cursor_idempotent :
    (∀ (exits : ExitsMod) (row : SignalRow) (rest : List SignalRow) (i : Int)
        (st : EngineState), i ≤ st.last_index →
        consume_from exits i (row :: rest) st = consume_from exits (i + 1) rest st) ∧
    (∀ (exits : ExitsMod) (feed : List SignalRow) (st : EngineState),
        consume_signals exits feed (consume_signals exits feed st) =
          consume_signals exits feed st) := by
  constructor
  · intro exits row rest i st h
    rw [consume_from]
    rw [if_pos h]
  · intro exits feed st
    unfold consume_signals
    apply consume_from_all_consumed
    intro j hj0 hjlen
    cases feed with
    | nil =>
      simp only [List.length_nil] at hjlen
      omega
    | cons row rest =>
      have hge := consume_from_last_index_ge exits (row :: rest) 0 st (by simp)
      simp only [List.length_cons] at hge hjlen
      omega

/-- Witness for C8: re-reading index 0 when the cursor already stands at 0
is a no-op on a concrete one-row feed. -/
theorem C8_witness :
    consume_from exits_A 0
        [{ symbol := "BTCUSDT", direction := Direction.LONG, entry_ref_price := 100,
           ema25_4h := 98, fib_0236 := 97, signal_id := "s1" }]
        { last_index := 0, positions := [], balance := 10000 } =
      consume_from exits_A 1 []
        { last_index := 0, positions := [], balance := 10000 } :=
  C8_cursor_idempotent.1 exits_A _ [] 0
    { last_index := 0, positions := [], balance := 10000 } (by norm_num)

end Papertrader
